import Mathlib

/-!
Verification development for the bagamba incident bot.

The definitions below are a shallow embedding of the incident lifecycle
core of the repository: `database.py` (incident store), `incident_manager.py`
(lifecycle transitions), `redis_scheduler.py` (reminder scheduler) and
`notification_worker.py` (reminder worker), together with the
reply-received handler from `bot.py` (`handle_thread_message`).

Modelling conventions:
- Timestamps (`datetime.now()`, isoformat strings) are natural numbers;
  `datetime.now() + timedelta(minutes=m)` becomes `now + m` where `now`
  is passed in explicitly.
- The sqlite table is a list of `Incident` rows (insertion order); SQL
  `SELECT ... WHERE` is `List.find?`, `UPDATE ... WHERE` is a `List.map`
  that rewrites the matching rows, and `cursor.rowcount` is a `countP`.
- The Redis backing store is `SchedState`: `queue` models the Redis list
  `notifications:queue` with the head of the Lean list at the *left* end
  of the Redis list (`lpush` is `List.cons`, `brpop` takes `getLast?`),
  and `keys` models the tracking keys `notification:{ticket}:{type}` as an
  association list keyed by the `(ticket_key, notification_type)` pair.
  The 24h TTL on tracking keys (`ex=86400`) is not modelled: the sequential
  model has no wall-clock expiry.
- Redis primitives are modelled as always succeeding in this first, pure
  layer; a second, monadic layer further down models the `try/except`
  structure of the scheduler with explicit failure injection.
- Delivery of a reminder (`_send_notification`, which posts to the chat
  adapter) is modelled as appending the delivered payload to a `sent` log.
-/

/-- The `IncidentStatus` enum from `database.py`. -/
inductive IncidentStatus where
  | created
  | assigned
  | awaiting_response
  | closed
  | frozen
deriving DecidableEq

/-- The `.value` string of each enum member in `database.py`. -/
def IncidentStatus.value : IncidentStatus → String
  | .created => "created"
  | .assigned => "assigned"
  | .awaiting_response => "awaiting_response"
  | .closed => "closed"
  | .frozen => "frozen"

/-- The `Incident` dataclass from `database.py`. -/
structure Incident where
  ticket_key : String
  channel_id : String
  thread_ts : String
  author_id : String
  status : IncidentStatus
  assigned_to : Option String := none
  created_at : Option Nat := none
  last_notification : Option Nat := none
deriving DecidableEq

/-- Embeds `Database.get_incident`: `SELECT ... WHERE ticket_key = ?`, first row. -/
def get_incident (db : List Incident) (tk : String) : Option Incident :=
  db.find? (fun r => r.ticket_key == tk)

/-- Embeds `Database.get_incident_by_thread`: `SELECT ... WHERE channel_id = ? AND thread_ts = ?`. -/
def get_incident_by_thread (db : List Incident) (ch ts : String) : Option Incident :=
  db.find? (fun r => r.channel_id == ch && r.thread_ts == ts)

/-- Embeds `Database.update_incident`: re-reads the currently stored status of the
row, then runs `UPDATE incidents SET status, assigned_to, last_notification
WHERE ticket_key = ? AND status = ?` with the *re-read* status, and reports
failure when the row is absent or `cursor.rowcount == 0`.  Note that the
status compared in the `WHERE` clause is the one the operation itself just
read, not a caller-supplied expectation. -/
def update_incident (db : List Incident) (inc : Incident) :
    List Incident × Bool :=
  match db.find? (fun r => r.ticket_key == inc.ticket_key) with
  | none => (db, false)
  | some cur =>
    let hit : Incident → Bool :=
      fun r => r.ticket_key == inc.ticket_key && decide (r.status = cur.status)
    let db2 := db.map (fun r =>
      if hit r then
        { r with status := inc.status, assigned_to := inc.assigned_to,
                 last_notification := inc.last_notification }
      else r)
    if db.countP hit == 0 then (db2, false) else (db2, true)

/-- The `incident_data` dict built by `main.py` / `restore_notifications`
as a denormalized snapshot of an incident (status is carried as the enum's
`.value` string, since the worker later overwrites it with a string). -/
structure IncidentData where
  ticket_key : String
  channel_id : String
  thread_ts : String
  author_id : String
  status : String
  assigned_to : Option String
  created_at : Nat
  last_notification : Option Nat
deriving DecidableEq

/-- The `notification_data` dict built by
`RedisNotificationScheduler.schedule_notification`. -/
structure NotificationData where
  ticket_key : String
  incident_data : IncidentData
  notification_type : String
  interval_minutes : Nat
  scheduled_time : Nat
  created_at : Nat
deriving DecidableEq

/-- The Redis state owned by the scheduler: the `notifications:queue` list
(head of the Lean list = left end of the Redis list) and the tracking keys
`notification:{ticket_key}:{notification_type}`. -/
structure SchedState where
  queue : List NotificationData
  keys : List ((String × String) × NotificationData)
deriving DecidableEq

/-- Does this queue entry belong to the `(tk, ty)` reminder key?  This is
the predicate of the queue-filtering loop in `_remove_from_queue`. -/
def matchesKey (tk ty : String) (n : NotificationData) : Bool :=
  n.ticket_key == tk && n.notification_type == ty

/-- Embeds `redis_client.exists(notification_key)` for the `(tk, ty)` key. -/
def keyLive (st : SchedState) (tk ty : String) : Bool :=
  st.keys.any (fun kv => kv.fst == (tk, ty))

/-- Embeds `redis_client.delete(notification_key)` for the `(tk, ty)` key. -/
def keyDelete (tk ty : String) (st : SchedState) : SchedState :=
  { st with keys := st.keys.filter (fun kv => !(kv.fst == (tk, ty))) }

/-- Embeds `redis_client.set(notification_key, ...)`: installs the `(tk, ty)`
tracking key, overwriting any previous value. -/
def keySet (tk ty : String) (nd : NotificationData) (st : SchedState) : SchedState :=
  { st with keys := ((tk, ty), nd) :: st.keys.filter (fun kv => !(kv.fst == (tk, ty))) }

/-- Embeds `RedisNotificationScheduler._remove_from_queue` (and the worker's
identical `_remove_from_queue`): `lrange` the whole queue, keep the items
not matching `(tk, ty)`, and — only when something was removed — delete the
queue and `lpush` the kept items back.  `lpush(*items)` pushes left-to-right,
so the rebuilt Redis list is the *reverse* of the kept sequence. -/
def removeFromQueue (tk ty : String) (st : SchedState) : SchedState :=
  let keep := st.queue.filter (fun n => !(matchesKey tk ty n))
  if keep.length == st.queue.length then st
  else { st with queue := keep.reverse }

/-- Embeds `RedisNotificationScheduler.cancel_notification`: delete the tracking
key, then remove the matching queue entries. -/
def cancel_notification (tk ty : String) (st : SchedState) : SchedState :=
  removeFromQueue tk ty (keyDelete tk ty st)

/-- The `notification_data` dict assembled by `schedule_notification`:
`scheduled_time = now + interval_minutes`, `created_at = now`. -/
def mkNotificationData (now : Nat) (tk : String) (data : IncidentData)
    (iv : Nat) (ty : String) : NotificationData :=
  { ticket_key := tk, incident_data := data, notification_type := ty,
    interval_minutes := iv, scheduled_time := now + iv, created_at := now }

/-- Embeds `RedisNotificationScheduler.schedule_notification`: if the tracking key
already exists, cancel the previous reminder first; then `lpush` the new
entry and install the tracking key. -/
def schedule_notification (now : Nat) (tk : String) (data : IncidentData)
    (iv : Nat) (ty : String) (st : SchedState) : SchedState :=
  let st1 := if keyLive st tk ty then cancel_notification tk ty st else st
  let nd := mkNotificationData now tk data iv ty
  keySet tk ty nd { st1 with queue := nd :: st1.queue }

/-- Embeds `RedisNotificationScheduler._remove_all_from_queue`: like
`_remove_from_queue` but keyed on the ticket only. -/
def removeAllFromQueue (tk : String) (st : SchedState) : SchedState :=
  let keep := st.queue.filter (fun n => !(n.ticket_key == tk))
  if keep.length == st.queue.length then st
  else { st with queue := keep.reverse }

/-- Embeds `RedisNotificationScheduler.cancel_all_notifications`: delete every
tracking key matching `notification:{tk}:*`, then remove every queue entry
for the ticket.  (The `keys` pattern match is modelled as equality on the
ticket component of the structured key.) -/
def cancel_all_notifications (tk : String) (st : SchedState) : SchedState :=
  let st1 := { st with keys := st.keys.filter (fun kv => !(kv.fst.fst == tk)) }
  removeAllFromQueue tk st1

/-- The `incident_data` snapshot built inside
`RedisNotificationScheduler.restore_notifications` (with
`created_at.isoformat() if created_at else datetime.now().isoformat()`
becoming `getD now`). -/
def incidentToData (now : Nat) (inc : Incident) : IncidentData :=
  { ticket_key := inc.ticket_key, channel_id := inc.channel_id,
    thread_ts := inc.thread_ts, author_id := inc.author_id,
    status := inc.status.value, assigned_to := inc.assigned_to,
    created_at := inc.created_at.getD now,
    last_notification := inc.last_notification }

/-- Embeds `RedisNotificationScheduler.restore_notifications`: for each incident
in the given list whose status is `CREATED`, schedule a `"default"`
reminder with a 5-minute delay; incidents in any other status are skipped. -/
def restore_notifications (now : Nat) : List Incident → SchedState → SchedState
  | [], st => st
  | inc :: rest, st =>
    restore_notifications now rest
      (if decide (inc.status = IncidentStatus.created) then
        schedule_notification now inc.ticket_key (incidentToData now inc) 5 "default" st
      else st)

/-- Combined system state: the sqlite incident table, the Redis scheduler
state, and the log of reminders handed to the chat adapter (most recent
first).  `sent` models the observable effect of `_send_notification`. -/
structure SysState where
  db : List Incident
  sched : SchedState
  sent : List (IncidentData × String)
deriving DecidableEq

/-- Embeds `NotificationWorker._schedule_next_notification`: refresh the due time
(`now + interval_minutes`) and creation stamp on the same notification
payload, `lpush` it, and rewrite the tracking key. -/
def scheduleNext (now : Nat) (nd : NotificationData) (st : SchedState) : SchedState :=
  let nd2 := { nd with scheduled_time := now + nd.interval_minutes, created_at := now }
  keySet nd.ticket_key nd.notification_type nd2 { st with queue := nd2 :: st.queue }

/-- Embeds `NotificationWorker._process_notification`: re-read the incident from
the store (`_get_incident_status` returns `status.value`, compared via
`.upper()` against `"CLOSED"` / `"FROZEN"`, which holds exactly when the
status is `closed` / `frozen`); if absent, drop the entry; if closed or
frozen, cancel the reminder without sending; otherwise overwrite the
snapshot's status string with the current one, send, and reschedule when
the status is `created` or `awaiting_response`, else cancel. -/
def process_notification (now : Nat) (nd : NotificationData) (s : SysState) : SysState :=
  match get_incident s.db nd.ticket_key with
  | none => s
  | some inc =>
    if decide (inc.status = IncidentStatus.closed) then
      { s with sched := cancel_notification nd.ticket_key nd.notification_type s.sched }
    else if decide (inc.status = IncidentStatus.frozen) then
      { s with sched := cancel_notification nd.ticket_key nd.notification_type s.sched }
    else
      let data2 := { nd.incident_data with status := inc.status.value }
      let s2 := { s with sent := (data2, nd.notification_type) :: s.sent }
      if decide (inc.status = IncidentStatus.created)
          || decide (inc.status = IncidentStatus.awaiting_response) then
        { s2 with sched := scheduleNext now nd s2.sched }
      else
        { s2 with sched := cancel_notification nd.ticket_key nd.notification_type s2.sched }

/-- One iteration of `NotificationWorker.run`: `brpop` the right end of the
queue; if nothing is there, do nothing; if the popped entry is due
(`current_time >= scheduled_time`), process it; otherwise `lpush` it back
(the sleep has no state effect). -/
def worker_step (now : Nat) (s : SysState) : SysState :=
  match s.sched.queue.getLast? with
  | none => s
  | some nd =>
    let s1 : SysState := { s with sched := { s.sched with queue := s.sched.queue.dropLast } }
    if decide (nd.scheduled_time ≤ now) then process_notification now nd s1
    else { s1 with sched := { s1.sched with queue := nd :: s1.sched.queue } }

/-- Embeds `IncidentManager.take_incident_in_progress`: requires the incident to
exist with status `CREATED`; sets `ASSIGNED` and `assigned_to`, writes via
`update_incident`, and on success cancels the `"default"` reminder. -/
def take_incident_in_progress (tk assignee : String) (s : SysState) : SysState × Bool :=
  match get_incident s.db tk with
  | some inc =>
    if decide (inc.status = IncidentStatus.created) then
      let inc2 := { inc with status := IncidentStatus.assigned, assigned_to := some assignee }
      let r := update_incident s.db inc2
      if r.snd then
        ({ s with db := r.fst, sched := cancel_notification tk "default" s.sched }, true)
      else ({ s with db := r.fst }, false)
    else (s, false)
  | none => (s, false)

/-- Embeds `IncidentManager.set_awaiting_response`: requires status `ASSIGNED` or
`FROZEN`; sets `AWAITING_RESPONSE`, writes, and on success cancels all
reminders for the ticket. -/
def set_awaiting_response (tk : String) (s : SysState) : SysState × Bool :=
  match get_incident s.db tk with
  | some inc =>
    if decide (inc.status = IncidentStatus.assigned)
        || decide (inc.status = IncidentStatus.frozen) then
      let inc2 := { inc with status := IncidentStatus.awaiting_response }
      let r := update_incident s.db inc2
      if r.snd then
        ({ s with db := r.fst, sched := cancel_all_notifications tk s.sched }, true)
      else ({ s with db := r.fst }, false)
    else (s, false)
  | none => (s, false)

/-- Embeds `IncidentManager.close_incident`: requires only that the incident
exist — there is no check on its current status; sets `CLOSED`, writes,
and on success cancels all reminders. -/
def close_incident (tk : String) (s : SysState) : SysState × Bool :=
  match get_incident s.db tk with
  | some inc =>
    let inc2 := { inc with status := IncidentStatus.closed }
    let r := update_incident s.db inc2
    if r.snd then
      ({ s with db := r.fst, sched := cancel_all_notifications tk s.sched }, true)
    else ({ s with db := r.fst }, false)
  | none => (s, false)

/-- Embeds `IncidentManager.freeze_incident`: requires only that the incident
exist — there is no check on its current status; sets `FROZEN`, writes,
and on success cancels all reminders. -/
def freeze_incident (tk : String) (s : SysState) : SysState × Bool :=
  match get_incident s.db tk with
  | some inc =>
    let inc2 := { inc with status := IncidentStatus.frozen }
    let r := update_incident s.db inc2
    if r.snd then
      ({ s with db := r.fst, sched := cancel_all_notifications tk s.sched }, true)
    else ({ s with db := r.fst }, false)
  | none => (s, false)

/-- The reply-received event: the state-changing core of
`IncidentBot.handle_thread_message` in `bot.py` — only an incident found by
thread and currently `AWAITING_RESPONSE` is moved back to `ASSIGNED`, and
on a successful write the `"awaiting_response"` reminder is cancelled.
The Boolean reports whether the transition was applied. -/
def handle_thread_message (ch ts : String) (s : SysState) : SysState × Bool :=
  match get_incident_by_thread s.db ch ts with
  | some inc =>
    if decide (inc.status = IncidentStatus.awaiting_response) then
      let inc2 := { inc with status := IncidentStatus.assigned }
      let r := update_incident s.db inc2
      if r.snd then
        ({ s with db := r.fst,
                  sched := cancel_notification inc.ticket_key "awaiting_response" s.sched }, true)
      else ({ s with db := r.fst }, false)
    else (s, false)
  | none => (s, false)

/-! ## Observables and the per-key invariant -/

/-- The live reminders for a `(tk, ty)` key: the queue entries that can
still fire for that key.  (The tracking key alone never fires anything —
the worker only consumes the queue — so a live Reminder is a queue entry.) -/
def liveFor (st : SchedState) (tk ty : String) : List NotificationData :=
  st.queue.filter (matchesKey tk ty)

/-- Number of live reminders for a `(tk, ty)` key. -/
def liveCount (st : SchedState) (tk ty : String) : Nat :=
  st.queue.countP (matchesKey tk ty)

/-- The scheduler state with no queue entries and no tracking keys. -/
def emptySched : SchedState := { queue := [], keys := [] }

/-- Two queue entries address the same `(ticket_key, kind)` reminder. -/
def sameKey (a b : NotificationData) : Bool :=
  matchesKey a.ticket_key a.notification_type b

/-- The scheduler invariant: queue entries have pairwise distinct
`(ticket_key, kind)` addresses, and every queue entry is covered by its
tracking key.  The second conjunct is what makes the key-existence check
in `schedule_notification` a faithful guard for the queue. -/
def SchedInv (st : SchedState) : Prop :=
  st.queue.Pairwise (fun a b => sameKey a b = false) ∧
  ∀ n ∈ st.queue, keyLive st n.ticket_key n.notification_type = true

theorem matchesKey_iff {tk ty : String} {n : NotificationData} :
    matchesKey tk ty n = true ↔ n.ticket_key = tk ∧ n.notification_type = ty := by
  simp [matchesKey]

theorem matchesKey_eq_false_iff {tk ty : String} {n : NotificationData} :
    matchesKey tk ty n = false ↔ ¬(n.ticket_key = tk ∧ n.notification_type = ty) := by
  rw [← Bool.not_eq_true, matchesKey_iff]

theorem sameKey_eq_false_symm {a b : NotificationData}
    (h : sameKey a b = false) : sameKey b a = false := by
  rw [sameKey, matchesKey_eq_false_iff] at h ⊢
  intro hc
  exact h ⟨hc.1.symm, hc.2.symm⟩

theorem countP_matches_le_one {l : List NotificationData}
    (h : l.Pairwise (fun a b => sameKey a b = false)) (tk ty : String) :
    l.countP (matchesKey tk ty) ≤ 1 := by
  induction l with
  | nil => simp
  | cons a l ih =>
    rcases List.pairwise_cons.mp h with ⟨ha, hl⟩
    rw [List.countP_cons]
    by_cases hpa : matchesKey tk ty a = true
    · have hz : l.countP (matchesKey tk ty) = 0 := by
        rw [List.countP_eq_zero]
        intro b hb hpb
        have hab : sameKey a b = true := by
          rw [sameKey, matchesKey_iff]
          rcases matchesKey_iff.mp hpa with ⟨h1, h2⟩
          rcases matchesKey_iff.mp hpb with ⟨h3, h4⟩
          exact ⟨h3.trans h1.symm, h4.trans h2.symm⟩
        rw [ha b hb] at hab
        exact Bool.false_ne_true hab
      simp [hpa, hz]
    · have : matchesKey tk ty a = false := by
        cases hv : matchesKey tk ty a
        · rfl
        · exact absurd hv hpa
      simp [this]
      exact ih hl

theorem liveCount_le_one {st : SchedState} (h : SchedInv st) (tk ty : String) :
    liveCount st tk ty ≤ 1 :=
  countP_matches_le_one h.1 tk ty

/-! ## Plumbing lemmas about the Redis primitives -/

theorem keys_removeFromQueue (tk ty : String) (st : SchedState) :
    (removeFromQueue tk ty st).keys = st.keys := by
  simp only [removeFromQueue]
  split <;> rfl

theorem keys_removeAllFromQueue (tk : String) (st : SchedState) :
    (removeAllFromQueue tk st).keys = st.keys := by
  simp only [removeAllFromQueue]
  split <;> rfl

theorem queue_keyDelete (tk ty : String) (st : SchedState) :
    (keyDelete tk ty st).queue = st.queue := rfl

theorem queue_keySet (tk ty : String) (nd : NotificationData) (st : SchedState) :
    (keySet tk ty nd st).queue = st.queue := rfl

theorem countP_filter_not {α : Type} (p : α → Bool) (l : List α) :
    (l.filter (fun a => !(p a))).countP p = 0 := by
  rw [List.countP_filter]
  simp

theorem countP_reverse' {α : Type} (p : α → Bool) (l : List α) :
    l.reverse.countP p = l.countP p := by
  rw [List.countP_eq_length_filter, List.countP_eq_length_filter,
    List.filter_reverse, List.length_reverse]

theorem mem_removeFromQueue {tk ty : String} {st : SchedState}
    {n : NotificationData} (h : n ∈ (removeFromQueue tk ty st).queue) :
    n ∈ st.queue := by
  simp only [removeFromQueue] at h
  split at h
  · exact h
  · exact List.mem_of_mem_filter (List.mem_reverse.mp h)

theorem mem_removeAllFromQueue {tk : String} {st : SchedState}
    {n : NotificationData} (h : n ∈ (removeAllFromQueue tk st).queue) :
    n ∈ st.queue := by
  simp only [removeAllFromQueue] at h
  split at h
  · exact h
  · exact List.mem_of_mem_filter (List.mem_reverse.mp h)

theorem not_matches_of_mem_removeFromQueue {tk ty : String} {st : SchedState}
    {n : NotificationData} (h : n ∈ (removeFromQueue tk ty st).queue) :
    matchesKey tk ty n = false := by
  simp only [removeFromQueue] at h
  split at h
  · next hlen =>
    have hall : ∀ a ∈ st.queue, (!(matchesKey tk ty a)) = true := by
      rw [← List.countP_eq_length]
      rw [List.countP_eq_length_filter]
      simp only [beq_iff_eq] at hlen
      exact hlen
    have := hall n h
    simpa using this
  · have := (List.mem_filter.mp (List.mem_reverse.mp h)).2
    simpa using this

theorem liveCount_removeFromQueue_self (tk ty : String) (st : SchedState) :
    liveCount (removeFromQueue tk ty st) tk ty = 0 := by
  rw [liveCount, List.countP_eq_zero]
  intro n hn
  rw [not_matches_of_mem_removeFromQueue hn]
  exact Bool.false_ne_true

theorem liveCount_removeFromQueue_other {tk' ty' tk ty : String}
    (h : ¬(tk' = tk ∧ ty' = ty)) (st : SchedState) :
    liveCount (removeFromQueue tk ty st) tk' ty' = liveCount st tk' ty' := by
  simp only [liveCount, removeFromQueue]
  split
  · rfl
  · show (List.filter _ st.queue).reverse.countP _ = _
    rw [countP_reverse', List.countP_filter]
    refine List.countP_congr ?_
    intro n _
    cases hm : matchesKey tk' ty' n
    · simp
    · have hne : matchesKey tk ty n = false := by
        rw [matchesKey_eq_false_iff]
        rcases matchesKey_iff.mp hm with ⟨h1, h2⟩
        intro hc
        exact h ⟨h1.symm.trans hc.1, h2.symm.trans hc.2⟩
      simp [hne]

theorem not_ticket_of_mem_removeAllFromQueue {tk : String} {st : SchedState}
    {n : NotificationData} (h : n ∈ (removeAllFromQueue tk st).queue) :
    (n.ticket_key == tk) = false := by
  simp only [removeAllFromQueue] at h
  split at h
  · next hlen =>
    have hall : ∀ a ∈ st.queue, (!(a.ticket_key == tk)) = true := by
      rw [← List.countP_eq_length]
      rw [List.countP_eq_length_filter]
      simp only [beq_iff_eq] at hlen
      exact hlen
    have := hall n h
    simpa using this
  · have := (List.mem_filter.mp (List.mem_reverse.mp h)).2
    simpa using this

theorem liveCount_removeAllFromQueue_self (tk ty : String) (st : SchedState) :
    liveCount (removeAllFromQueue tk st) tk ty = 0 := by
  rw [liveCount, List.countP_eq_zero]
  intro n hn hm
  have h1 := not_ticket_of_mem_removeAllFromQueue hn
  rcases matchesKey_iff.mp hm with ⟨h2, _⟩
  rw [h2] at h1
  simp at h1

theorem liveCount_removeAllFromQueue_other {tk' tk : String} (h : tk' ≠ tk)
    (ty' : String) (st : SchedState) :
    liveCount (removeAllFromQueue tk st) tk' ty' = liveCount st tk' ty' := by
  simp only [liveCount, removeAllFromQueue]
  split
  · rfl
  · show (List.filter _ st.queue).reverse.countP _ = _
    rw [countP_reverse', List.countP_filter]
    refine List.countP_congr ?_
    intro n _
    cases hm : matchesKey tk' ty' n
    · simp
    · have hne : (n.ticket_key == tk) = false := by
        rcases matchesKey_iff.mp hm with ⟨h1, _⟩
        rw [h1]
        simpa using h
      simp [hne]

theorem keyLive_removeFromQueue (tk ty a b : String) (st : SchedState) :
    keyLive (removeFromQueue tk ty st) a b = keyLive st a b := by
  unfold keyLive
  rw [keys_removeFromQueue]

theorem keyLive_removeAllFromQueue (tk a b : String) (st : SchedState) :
    keyLive (removeAllFromQueue tk st) a b = keyLive st a b := by
  unfold keyLive
  rw [keys_removeAllFromQueue]

theorem keyLive_keyDelete_self (tk ty : String) (st : SchedState) :
    keyLive (keyDelete tk ty st) tk ty = false := by
  rw [Bool.eq_false_iff]
  intro h
  rcases List.any_eq_true.mp h with ⟨kv, hmem, hp⟩
  have := (List.mem_filter.mp hmem).2
  rw [hp] at this
  simp at this

theorem keyLive_keyDelete_other {tk' ty' tk ty : String}
    (h : ¬(tk' = tk ∧ ty' = ty)) (st : SchedState) :
    keyLive (keyDelete tk ty st) tk' ty' = keyLive st tk' ty' := by
  unfold keyLive keyDelete
  cases hv : st.keys.any (fun kv => kv.fst == (tk', ty'))
  · rw [Bool.eq_false_iff]
    intro hc
    rcases List.any_eq_true.mp hc with ⟨kv, hmem, hp⟩
    have hk : kv ∈ st.keys := (List.mem_filter.mp hmem).1
    rw [Bool.eq_false_iff] at hv
    exact hv (List.any_eq_true.mpr ⟨kv, hk, hp⟩)
  · rcases List.any_eq_true.mp hv with ⟨kv, hmem, hp⟩
    refine List.any_eq_true.mpr ⟨kv, List.mem_filter.mpr ⟨hmem, ?_⟩, hp⟩
    have hfst : kv.fst = (tk', ty') := by simpa using hp
    have hne : kv.fst ≠ (tk, ty) := by
      rw [hfst]
      intro hc
      rw [Prod.mk.injEq] at hc
      exact h hc
    simpa using hne

theorem keyLive_keySet_self (tk ty : String) (nd : NotificationData) (st : SchedState) :
    keyLive (keySet tk ty nd st) tk ty = true := by
  refine List.any_eq_true.mpr ⟨((tk, ty), nd), List.mem_cons_self _ _, by simp⟩

theorem keyLive_keySet_other {tk' ty' tk ty : String}
    (h : ¬(tk' = tk ∧ ty' = ty)) (nd : NotificationData) (st : SchedState) :
    keyLive (keySet tk ty nd st) tk' ty' = keyLive st tk' ty' := by
  unfold keyLive keySet
  rw [List.any_cons]
  have hhead : (((tk, ty), nd).fst == (tk', ty')) = false := by
    have : (tk, ty) ≠ (tk', ty') := by
      intro hc
      rw [Prod.mk.injEq] at hc
      exact h ⟨hc.1.symm, hc.2.symm⟩
    simpa using this
  rw [hhead, Bool.false_or]
  cases hv : st.keys.any (fun kv => kv.fst == (tk', ty'))
  · rw [Bool.eq_false_iff]
    intro hc
    rcases List.any_eq_true.mp hc with ⟨kv, hmem, hp⟩
    have hk : kv ∈ st.keys := (List.mem_filter.mp hmem).1
    rw [Bool.eq_false_iff] at hv
    exact hv (List.any_eq_true.mpr ⟨kv, hk, hp⟩)
  · rcases List.any_eq_true.mp hv with ⟨kv, hmem, hp⟩
    refine List.any_eq_true.mpr ⟨kv, List.mem_filter.mpr ⟨hmem, ?_⟩, hp⟩
    have hfst : kv.fst = (tk', ty') := by simpa using hp
    have hne : kv.fst ≠ (tk, ty) := by
      rw [hfst]
      intro hc
      rw [Prod.mk.injEq] at hc
      exact h ⟨hc.1, hc.2⟩
    simpa using hne

theorem liveCount_cancel_self (tk ty : String) (st : SchedState) :
    liveCount (cancel_notification tk ty st) tk ty = 0 :=
  liveCount_removeFromQueue_self tk ty (keyDelete tk ty st)

theorem liveCount_cancel_other {tk' ty' tk ty : String}
    (h : ¬(tk' = tk ∧ ty' = ty)) (st : SchedState) :
    liveCount (cancel_notification tk' ty' st) tk ty = liveCount st tk ty := by
  have := @liveCount_removeFromQueue_other tk ty tk' ty'
    (by intro hc; exact h ⟨hc.1.symm, hc.2.symm⟩) (keyDelete tk' ty' st)
  exact this

theorem keyLive_cancel_self (tk ty : String) (st : SchedState) :
    keyLive (cancel_notification tk ty st) tk ty = false := by
  rw [cancel_notification, keyLive_removeFromQueue]
  exact keyLive_keyDelete_self tk ty st

theorem pairwise_nk_reverse {l : List NotificationData}
    (h : l.Pairwise (fun a b => sameKey a b = false)) :
    l.reverse.Pairwise (fun a b => sameKey a b = false) := by
  rw [List.pairwise_reverse]
  exact h.imp (fun hab => sameKey_eq_false_symm hab)

theorem pairwise_nk_removeFromQueue {st : SchedState} (tk ty : String)
    (h : st.queue.Pairwise (fun a b => sameKey a b = false)) :
    (removeFromQueue tk ty st).queue.Pairwise (fun a b => sameKey a b = false) := by
  simp only [removeFromQueue]
  split
  · exact h
  · exact pairwise_nk_reverse (List.Pairwise.sublist (List.filter_sublist _) h)

theorem pairwise_nk_removeAllFromQueue {st : SchedState} (tk : String)
    (h : st.queue.Pairwise (fun a b => sameKey a b = false)) :
    (removeAllFromQueue tk st).queue.Pairwise (fun a b => sameKey a b = false) := by
  simp only [removeAllFromQueue]
  split
  · exact h
  · exact pairwise_nk_reverse (List.Pairwise.sublist (List.filter_sublist _) h)

theorem queue_removeFromQueue_congr {st1 st2 : SchedState} (tk ty : String)
    (h : st1.queue = st2.queue) :
    (removeFromQueue tk ty st1).queue = (removeFromQueue tk ty st2).queue := by
  simp only [removeFromQueue]
  rw [h]
  by_cases hc : ((st2.queue.filter (fun n => !(matchesKey tk ty n))).length == st2.queue.length) = true
  · rw [if_pos hc, if_pos hc]
    exact h
  · rw [if_neg hc, if_neg hc]

theorem queue_cancel_eq_removeFromQueue (tk ty : String) (st : SchedState) :
    (cancel_notification tk ty st).queue = (removeFromQueue tk ty st).queue := by
  rw [cancel_notification]
  exact queue_removeFromQueue_congr tk ty rfl

theorem SchedInv_cancel {st : SchedState} (h : SchedInv st) (tk ty : String) :
    SchedInv (cancel_notification tk ty st) := by
  constructor
  · rw [queue_cancel_eq_removeFromQueue]
    exact pairwise_nk_removeFromQueue tk ty h.1
  · intro n hn
    have hn' : n ∈ (removeFromQueue tk ty st).queue := by
      rw [← queue_cancel_eq_removeFromQueue]
      exact hn
    have hmem : n ∈ st.queue := mem_removeFromQueue hn'
    have hnm : matchesKey tk ty n = false := not_matches_of_mem_removeFromQueue hn'
    have hpair : ¬(n.ticket_key = tk ∧ n.notification_type = ty) :=
      matchesKey_eq_false_iff.mp hnm
    rw [cancel_notification, keyLive_removeFromQueue,
      keyLive_keyDelete_other hpair]
    exact h.2 n hmem

theorem SchedInv_cancel_all {st : SchedState} (h : SchedInv st) (tk : String) :
    SchedInv (cancel_all_notifications tk st) := by
  constructor
  · simp only [cancel_all_notifications]
    exact pairwise_nk_removeAllFromQueue tk h.1
  · intro n hn
    simp only [cancel_all_notifications] at hn
    have hmem : n ∈ st.queue := by
      have := mem_removeAllFromQueue hn
      exact this
    have hnt : (n.ticket_key == tk) = false := not_ticket_of_mem_removeAllFromQueue hn
    have hcov := h.2 n hmem
    rcases List.any_eq_true.mp hcov with ⟨kv, hk, hp⟩
    unfold keyLive
    simp only [cancel_all_notifications]
    rw [keys_removeAllFromQueue]
    refine List.any_eq_true.mpr ⟨kv, List.mem_filter.mpr ⟨hk, ?_⟩, hp⟩
    have hfst : kv.fst = (n.ticket_key, n.notification_type) := by simpa using hp
    rw [hfst]
    simpa using (by simpa using hnt : n.ticket_key ≠ tk)

theorem liveFor_nil_of_liveCount_zero {st : SchedState} {tk ty : String}
    (h : liveCount st tk ty = 0) : liveFor st tk ty = [] := by
  rw [liveCount, List.countP_eq_length_filter] at h
  rw [liveFor]
  exact List.length_eq_zero.mp h

theorem liveCount_eq_zero_of_not_keyLive {st : SchedState} (h : SchedInv st)
    {tk ty : String} (hk : keyLive st tk ty = false) : liveCount st tk ty = 0 := by
  rw [liveCount, List.countP_eq_zero]
  intro n hn hm
  rcases matchesKey_iff.mp hm with ⟨h1, h2⟩
  have hc := h.2 n hn
  rw [h1, h2] at hc
  rw [hc] at hk
  exact absurd hk (by simp)

theorem not_matches_of_liveCount_zero {st : SchedState} {tk ty : String}
    (h : liveCount st tk ty = 0) {n : NotificationData} (hn : n ∈ st.queue) :
    matchesKey tk ty n = false := by
  rw [liveCount, List.countP_eq_zero] at h
  cases hv : matchesKey tk ty n
  · rfl
  · exact absurd hv (h n hn)

theorem SchedInv_install {st1 : SchedState} {tk ty : String} (h1 : SchedInv st1)
    (hz : liveCount st1 tk ty = 0) (nd : NotificationData)
    (hnd : nd.ticket_key = tk) (hty : nd.notification_type = ty) :
    SchedInv (keySet tk ty nd { st1 with queue := nd :: st1.queue }) ∧
    liveFor (keySet tk ty nd { st1 with queue := nd :: st1.queue }) tk ty = [nd] := by
  have hmatch : matchesKey tk ty nd = true := by
    rw [matchesKey_iff]
    exact ⟨hnd, hty⟩
  refine ⟨⟨?_, ?_⟩, ?_⟩
  · show (nd :: st1.queue).Pairwise (fun a b => sameKey a b = false)
    rw [List.pairwise_cons]
    refine ⟨?_, h1.1⟩
    intro b hb
    show matchesKey nd.ticket_key nd.notification_type b = false
    rw [hnd, hty]
    exact not_matches_of_liveCount_zero hz hb
  · intro n hn
    have hn' : n ∈ nd :: st1.queue := hn
    rcases List.mem_cons.mp hn' with hEq | hmem
    · subst hEq
      rw [hnd, hty]
      exact keyLive_keySet_self tk ty n _
    · have hnm : matchesKey tk ty n = false := not_matches_of_liveCount_zero hz hmem
      have hpair : ¬(n.ticket_key = tk ∧ n.notification_type = ty) :=
        matchesKey_eq_false_iff.mp hnm
      rw [keyLive_keySet_other hpair]
      exact h1.2 n hmem
  · show List.filter (matchesKey tk ty) (nd :: st1.queue) = [nd]
    rw [List.filter_cons_of_pos hmatch]
    have : List.filter (matchesKey tk ty) st1.queue = [] :=
      liveFor_nil_of_liveCount_zero hz
    rw [this]

theorem SchedInv_schedule {st : SchedState} (h : SchedInv st)
    (now : Nat) (tk : String) (data : IncidentData) (iv : Nat) (ty : String) :
    SchedInv (schedule_notification now tk data iv ty st) ∧
    liveFor (schedule_notification now tk data iv ty st) tk ty
      = [mkNotificationData now tk data iv ty] := by
  simp only [schedule_notification]
  by_cases hk : keyLive st tk ty = true
  · rw [if_pos hk]
    exact SchedInv_install (SchedInv_cancel h tk ty) (liveCount_cancel_self tk ty st)
      (mkNotificationData now tk data iv ty) rfl rfl
  · have hk' : keyLive st tk ty = false := by
      cases hv : keyLive st tk ty
      · rfl
      · exact absurd hv hk
    rw [if_neg hk]
    exact SchedInv_install h (liveCount_eq_zero_of_not_keyLive h hk')
      (mkNotificationData now tk data iv ty) rfl rfl

theorem mem_cancel {tk ty : String} {st : SchedState} {n : NotificationData}
    (h : n ∈ (cancel_notification tk ty st).queue) : n ∈ st.queue := by
  rw [queue_cancel_eq_removeFromQueue] at h
  have := mem_removeFromQueue h
  exact this

theorem liveCount_schedule_other {tk' ty' tk ty : String}
    (h : ¬(tk' = tk ∧ ty' = ty)) (now : Nat) (data : IncidentData) (iv : Nat)
    (st : SchedState) :
    liveCount (schedule_notification now tk data iv ty st) tk' ty'
      = liveCount st tk' ty' := by
  simp only [schedule_notification]
  have hnd : matchesKey tk' ty' (mkNotificationData now tk data iv ty) = false := by
    rw [matchesKey_eq_false_iff]
    intro hc
    exact h ⟨hc.1.symm ▸ rfl, hc.2.symm ▸ rfl⟩
  by_cases hk : keyLive st tk ty = true
  · rw [if_pos hk]
    show List.countP _ (_ :: (cancel_notification tk ty st).queue) = _
    rw [List.countP_cons]
    rw [hnd]
    have := @liveCount_cancel_other tk ty tk' ty'
      (by intro hc; exact h ⟨hc.1.symm, hc.2.symm⟩) st
    simpa [liveCount] using this
  · rw [if_neg hk]
    show List.countP _ (_ :: st.queue) = _
    rw [List.countP_cons, hnd]
    simp [liveCount]

theorem SchedInv_scheduleNext {st : SchedState} (h : SchedInv st)
    {nd : NotificationData}
    (hz : liveCount st nd.ticket_key nd.notification_type = 0) (now : Nat) :
    SchedInv (scheduleNext now nd st) := by
  simp only [scheduleNext]
  exact (SchedInv_install h hz
    { nd with scheduled_time := now + nd.interval_minutes, created_at := now }
    rfl rfl).1

theorem SchedInv_process {now : Nat} {nd : NotificationData} {s : SysState}
    (h : SchedInv s.sched)
    (hz : liveCount s.sched nd.ticket_key nd.notification_type = 0) :
    SchedInv (process_notification now nd s).sched := by
  cases hg : get_incident s.db nd.ticket_key with
  | none =>
    simp only [process_notification, hg]
    exact h
  | some inc =>
    simp only [process_notification, hg]
    by_cases hcl : inc.status = IncidentStatus.closed
    · rw [if_pos (by simp [hcl])]
      exact SchedInv_cancel h _ _
    · rw [if_neg (by simp [hcl])]
      by_cases hfr : inc.status = IncidentStatus.frozen
      · rw [if_pos (by simp [hfr])]
        exact SchedInv_cancel h _ _
      · rw [if_neg (by simp [hfr])]
        by_cases hact : inc.status = IncidentStatus.created
            ∨ inc.status = IncidentStatus.awaiting_response
        · rw [if_pos (by rcases hact with hv | hv <;> simp [hv])]
          exact SchedInv_scheduleNext h hz now
        · rw [if_neg (by push_neg at hact; simp [hact.1, hact.2])]
          exact SchedInv_cancel h _ _

theorem SchedInv_worker_step {s : SysState} (h : SchedInv s.sched) (now : Nat) :
    SchedInv (worker_step now s).sched := by
  rcases List.eq_nil_or_concat s.sched.queue with hq | ⟨L, nd, hq⟩
  · have hlast : s.sched.queue.getLast? = none := by
      rw [hq]
      rfl
    simp only [worker_step, hlast]
    exact h
  · rw [List.concat_eq_append] at hq
    have hlast : s.sched.queue.getLast? = some nd := by
      rw [hq]
      exact List.getLast?_concat L
    have hdrop : s.sched.queue.dropLast = L := by
      rw [hq]
      exact List.dropLast_concat
    have hpw := h.1
    rw [hq] at hpw
    rcases List.pairwise_append.mp hpw with ⟨hpwL, _, hcross⟩
    have hndL : ∀ a ∈ L, matchesKey nd.ticket_key nd.notification_type a = false := by
      intro a ha
      exact sameKey_eq_false_symm (hcross a ha nd (List.mem_singleton_self nd))
    have hInv1 : SchedInv { queue := L, keys := s.sched.keys } := by
      constructor
      · exact hpwL
      · intro n hn
        have hn' : n ∈ s.sched.queue := by
          rw [hq]
          exact List.mem_append_left _ hn
        exact h.2 n hn'
    have hz : liveCount { queue := L, keys := s.sched.keys } nd.ticket_key
        nd.notification_type = 0 := by
      rw [liveCount, List.countP_eq_zero]
      intro a ha hm
      rw [hndL a ha] at hm
      exact absurd hm (by simp)
    simp only [worker_step, hlast, hdrop]
    by_cases hdue : nd.scheduled_time ≤ now
    · rw [if_pos (by simp [hdue])]
      exact SchedInv_process hInv1 hz
    · rw [if_neg (by simp [hdue])]
      constructor
      · show (nd :: L).Pairwise (fun a b => sameKey a b = false)
        rw [List.pairwise_cons]
        refine ⟨?_, hpwL⟩
        intro b hb
        exact sameKey_eq_false_symm (hcross b hb nd (List.mem_singleton_self nd))
      · intro n hn
        rcases List.mem_cons.mp hn with hEq | hmem
        · subst hEq
          have hn' : n ∈ s.sched.queue := by
            rw [hq]
            exact List.mem_append_right _ (List.mem_singleton_self n)
          exact h.2 n hn'
        · have hn' : n ∈ s.sched.queue := by
            rw [hq]
            exact List.mem_append_left _ hmem
          exact h.2 n hn'

/-! ## Claim C1 -/

/-- A concrete incident snapshot used by witness instances. -/
def exData : IncidentData :=
  { ticket_key := "T-1", channel_id := "C1", thread_ts := "11",
    author_id := "U1", status := "created", assigned_to := none,
    created_at := 0, last_notification := none }

theorem SchedInv_empty : SchedInv emptySched := by
  constructor
  · exact List.Pairwise.nil
  · intro n hn
    cases hn

/-- C1: for every scheduler state satisfying the per-key invariant, at
most one live reminder exists per `(ticket_key, kind)`; scheduling for a
key retires any previous entry and installs exactly the new one (with the
new due time `now + interval`); and the invariant is preserved by
`schedule_notification`, `cancel_notification`, `cancel_all_notifications`
and by a full worker iteration (including its rescheduling). -/
theorem c1_reminder_uniqueness (st : SchedState) (h : SchedInv st) :
    (∀ tk ty, liveCount st tk ty ≤ 1) ∧
    (∀ now tk data iv ty,
      SchedInv (schedule_notification now tk data iv ty st) ∧
      liveFor (schedule_notification now tk data iv ty st) tk ty
        = [mkNotificationData now tk data iv ty]) ∧
    (∀ tk ty, SchedInv (cancel_notification tk ty st) ∧
      liveCount (cancel_notification tk ty st) tk ty = 0) ∧
    (∀ tk, SchedInv (cancel_all_notifications tk st)) ∧
    (∀ now db sent, SchedInv (worker_step now { db := db, sched := st, sent := sent }).sched) := by
  refine ⟨liveCount_le_one h, ?_, ?_, ?_, ?_⟩
  · intro now tk data iv ty
    exact SchedInv_schedule h now tk data iv ty
  · intro tk ty
    exact ⟨SchedInv_cancel h tk ty, liveCount_cancel_self tk ty st⟩
  · intro tk
    exact SchedInv_cancel_all h tk
  · intro now db sent
    exact SchedInv_worker_step h now

theorem c1_reminder_uniqueness_witness :
    SchedInv emptySched ∧
    liveFor (schedule_notification 3 "T-1" exData 5 "default" emptySched) "T-1" "default"
      = [mkNotificationData 3 "T-1" exData 5 "default"] :=
  ⟨SchedInv_empty,
   ((c1_reminder_uniqueness emptySched SchedInv_empty).2.1 3 "T-1" exData 5 "default").2⟩

/-! ## Claim C9 -/

/-- C9: `update_incident` never alters `ticket_key`, `channel_id`,
`thread_ts`, `author_id` or `created_at` of any stored row, whether the
update succeeds or fails — the `UPDATE` statement only sets `status`,
`assigned_to` and `last_notification`. -/
theorem c9_update_preserves_identity_fields (db : List Incident) (inc : Incident) :
    List.Forall₂ (fun r r' =>
      r'.ticket_key = r.ticket_key ∧ r'.channel_id = r.channel_id ∧
      r'.thread_ts = r.thread_ts ∧ r'.author_id = r.author_id ∧
      r'.created_at = r.created_at) db (update_incident db inc).fst := by
  cases hf : db.find? (fun r => r.ticket_key == inc.ticket_key) with
  | none =>
    simp only [update_incident, hf]
    exact List.forall₂_same.mpr (fun r _ => ⟨rfl, rfl, rfl, rfl, rfl⟩)
  | some cur =>
    simp only [update_incident, hf]
    split
    all_goals
      rw [List.forall₂_map_right_iff]
      refine List.forall₂_same.mpr ?_
      intro r _
      by_cases hh : (r.ticket_key == inc.ticket_key && decide (r.status = cur.status)) = true
      · rw [if_pos hh]
        exact ⟨rfl, rfl, rfl, rfl, rfl⟩
      · rw [if_neg hh]
        exact ⟨rfl, rfl, rfl, rfl, rfl⟩

/-! ## Claim C8 -/

theorem keyDelete_noop {tk ty : String} {st : SchedState}
    (hk : keyLive st tk ty = false) : keyDelete tk ty st = st := by
  obtain ⟨q, k⟩ := st
  simp only [keyDelete]
  rw [SchedState.mk.injEq]
  refine ⟨rfl, List.filter_eq_self.mpr ?_⟩
  intro kv hkv
  rw [keyLive] at hk
  have := List.any_eq_false.mp hk kv hkv
  simpa using this

theorem removeFromQueue_noop {tk ty : String} {st : SchedState}
    (hz : liveCount st tk ty = 0) : removeFromQueue tk ty st = st := by
  have hkeep : st.queue.filter (fun n => !(matchesKey tk ty n)) = st.queue := by
    rw [List.filter_eq_self]
    intro n hn
    rw [not_matches_of_liveCount_zero hz hn]
    rfl
  simp only [removeFromQueue]
  rw [if_pos]
  rw [hkeep]
  exact beq_self_eq_true _

theorem cancel_absent_noop {tk ty : String} {st : SchedState}
    (hk : keyLive st tk ty = false) (hz : liveCount st tk ty = 0) :
    cancel_notification tk ty st = st := by
  rw [cancel_notification, keyDelete_noop hk]
  exact removeFromQueue_noop hz

theorem removeAllFromQueue_noop {tk : String} {st : SchedState}
    (hz : st.queue.countP (fun n => n.ticket_key == tk) = 0) :
    removeAllFromQueue tk st = st := by
  have hkeep : st.queue.filter (fun n => !(n.ticket_key == tk)) = st.queue := by
    rw [List.filter_eq_self]
    intro n hn
    rw [List.countP_eq_zero] at hz
    cases hv : (n.ticket_key == tk)
    · rfl
    · exact absurd hv (hz n hn)
  simp only [removeAllFromQueue]
  rw [if_pos]
  rw [hkeep]
  exact beq_self_eq_true _

theorem cancel_all_absent_noop {tk : String} {st : SchedState}
    (hk : st.keys.any (fun kv => kv.fst.fst == tk) = false)
    (hz : st.queue.countP (fun n => n.ticket_key == tk) = 0) :
    cancel_all_notifications tk st = st := by
  have hkeys : st.keys.filter (fun kv => !(kv.fst.fst == tk)) = st.keys := by
    rw [List.filter_eq_self]
    intro kv hkv
    have := List.any_eq_false.mp hk kv hkv
    simpa using this
  obtain ⟨q, k⟩ := st
  simp only [cancel_all_notifications] at hkeys ⊢
  rw [hkeys]
  exact removeAllFromQueue_noop hz

theorem keyLive_cancel_all_self (tk : String) (st : SchedState) :
    ((cancel_all_notifications tk st).keys.any (fun kv => kv.fst.fst == tk)) = false := by
  simp only [cancel_all_notifications]
  rw [keys_removeAllFromQueue]
  rw [List.any_eq_false]
  intro kv hkv
  have := (List.mem_filter.mp hkv).2
  simpa using this

theorem allCount_cancel_all_self (tk : String) (st : SchedState) :
    (cancel_all_notifications tk st).queue.countP (fun n => n.ticket_key == tk) = 0 := by
  rw [List.countP_eq_zero]
  intro n hn
  simp only [cancel_all_notifications] at hn
  have := not_ticket_of_mem_removeAllFromQueue hn
  simp [this]

/-- C8: `cancel_notification` and `cancel_all_notifications` are
idempotent — a second identical call leaves the Redis state exactly as the
first left it — and cancelling a reminder that is absent (no tracking key,
no queue entry) is a no-op on the state rather than an error. -/
theorem c8_cancel_idempotent :
    (∀ st tk ty, cancel_notification tk ty (cancel_notification tk ty st)
        = cancel_notification tk ty st) ∧
    (∀ st tk, cancel_all_notifications tk (cancel_all_notifications tk st)
        = cancel_all_notifications tk st) ∧
    (∀ st tk ty, keyLive st tk ty = false → liveCount st tk ty = 0 →
        cancel_notification tk ty st = st) := by
  refine ⟨?_, ?_, ?_⟩
  · intro st tk ty
    exact cancel_absent_noop (keyLive_cancel_self tk ty st) (liveCount_cancel_self tk ty st)
  · intro st tk
    exact cancel_all_absent_noop (keyLive_cancel_all_self tk st)
      (allCount_cancel_all_self tk st)
  · intro st tk ty hk hz
    exact cancel_absent_noop hk hz

theorem c8_cancel_idempotent_witness :
    keyLive emptySched "T-1" "default" = false ∧
    liveCount emptySched "T-1" "default" = 0 ∧
    cancel_notification "T-1" "default" emptySched = emptySched :=
  ⟨rfl, rfl, c8_cancel_idempotent.2.2 emptySched "T-1" "default" rfl rfl⟩

/-! ## Claim C7 -/

/-- C7: when the worker processes a due reminder whose incident is CLOSED
or FROZEN in the store, it cancels the reminder and delivers nothing (the
`sent` log is untouched — the resulting state differs only in `sched`);
and when the incident is absent from the store, the popped reminder is
dropped without delivery: a worker iteration just removes it from the
queue. -/
theorem c7_worker_drops_terminal (now : Nat) (nd : NotificationData) (s : SysState) :
    (get_incident s.db nd.ticket_key = none → process_notification now nd s = s) ∧
    (∀ inc, get_incident s.db nd.ticket_key = some inc →
      (inc.status = IncidentStatus.closed ∨ inc.status = IncidentStatus.frozen) →
      process_notification now nd s =
        { s with sched := cancel_notification nd.ticket_key nd.notification_type s.sched }) ∧
    (s.sched.queue.getLast? = some nd → nd.scheduled_time ≤ now →
      get_incident s.db nd.ticket_key = none →
      worker_step now s = { s with sched := { s.sched with queue := s.sched.queue.dropLast } }) := by
  refine ⟨?_, ?_, ?_⟩
  · intro hg
    simp only [process_notification, hg]
  · intro inc hg hst
    simp only [process_notification, hg]
    rcases hst with hv | hv
    · rw [if_pos (by simp [hv])]
    · rw [if_neg (by simp [hv])]
      rw [if_pos (by simp [hv])]
  · intro hlast hdue hg
    simp only [worker_step, hlast]
    rw [if_pos (by simp [hdue])]
    simp only [process_notification]
    have hg' : get_incident
        ({ s with sched := { s.sched with queue := s.sched.queue.dropLast } } : SysState).db
        nd.ticket_key = none := hg
    rw [hg']

/-! ## Store update lemmas shared by C2, C3, C4 -/

theorem update_incident_none {db : List Incident} {inc : Incident}
    (h : db.find? (fun r => r.ticket_key == inc.ticket_key) = none) :
    update_incident db inc = (db, false) := by
  simp only [update_incident, h]

theorem update_incident_found (db : List Incident) (inc cur : Incident)
    (h : db.find? (fun r => r.ticket_key == inc.ticket_key) = some cur) :
    update_incident db inc =
      (db.map (fun r =>
        if r.ticket_key == inc.ticket_key && decide (r.status = cur.status) then
          { r with status := inc.status, assigned_to := inc.assigned_to,
                   last_notification := inc.last_notification }
        else r), true) := by
  have hmem : cur ∈ db := List.mem_of_find?_eq_some h
  have hp : (cur.ticket_key == inc.ticket_key) = true := by
    have := List.find?_some h
    exact this
  have hpos : 0 < db.countP
      (fun r => r.ticket_key == inc.ticket_key && decide (r.status = cur.status)) :=
    List.countP_pos_iff.mpr ⟨cur, hmem, by rw [Bool.and_eq_true]; exact ⟨hp, by simp⟩⟩
  have hne : ¬((db.countP
      (fun r => r.ticket_key == inc.ticket_key && decide (r.status = cur.status)) == 0) = true) := by
    intro hc
    rw [beq_iff_eq] at hc
    omega
  simp only [update_incident, h]
  rw [if_neg hne]

theorem find?_ticket_of_get {db : List Incident} {tk : String} {inc : Incident}
    (hg : get_incident db tk = some inc) :
    db.find? (fun r => r.ticket_key == inc.ticket_key) = some inc := by
  have htk : inc.ticket_key = tk := by
    have := List.find?_some hg
    simpa using this
  rw [htk]
  exact hg

/-! ## Claim C2 -/

/-- A closed incident and a system state holding it, used in concrete
instances for C2/C4/C7. -/
def incCl : Incident :=
  { ticket_key := "T-2", channel_id := "C1", thread_ts := "11",
    author_id := "U1", status := IncidentStatus.closed }

def ndEx : NotificationData := mkNotificationData 0 "T-2" exData 7 "default"

def sysEx : SysState :=
  { db := [incCl],
    sched := { queue := [ndEx], keys := [(("T-2", "default"), ndEx)] },
    sent := [] }

def sysC : SysState := { db := [incCl], sched := emptySched, sent := [] }

/-- C2 counterexample: `freeze_incident` applied to an incident whose
current status is CLOSED — not in freeze's "From" set
{ASSIGNED, AWAITING_RESPONSE} — reports success and changes the stored
state, instead of returning a failure and leaving everything unchanged. -/
theorem c2_counterexample :
    incCl.status = IncidentStatus.closed ∧
    (freeze_incident "T-2" sysC).snd = true ∧
    (freeze_incident "T-2" sysC).fst ≠ sysC ∧
    (get_incident (freeze_incident "T-2" sysC).fst.db "T-2").map Incident.status
      = some IncidentStatus.frozen := by decide

/-- C2 (amended): `take_incident_in_progress`, `set_awaiting_response`
and the reply-received handler do enforce their "From" sets — outside them
they return a failure and leave the whole system state (store, reminders,
sent log) unchanged — but `close_incident` and `freeze_incident` check
only that the incident exists and report success from *any* current
status, including CLOSED. -/
theorem c2_from_set_enforcement (s : SysState) (tk assignee ch ts : String) :
    (∀ inc, get_incident s.db tk = some inc → inc.status ≠ IncidentStatus.created →
      take_incident_in_progress tk assignee s = (s, false)) ∧
    (get_incident s.db tk = none → take_incident_in_progress tk assignee s = (s, false)) ∧
    (∀ inc, get_incident s.db tk = some inc →
      inc.status ≠ IncidentStatus.assigned → inc.status ≠ IncidentStatus.frozen →
      set_awaiting_response tk s = (s, false)) ∧
    (get_incident s.db tk = none → set_awaiting_response tk s = (s, false)) ∧
    (∀ inc, get_incident_by_thread s.db ch ts = some inc →
      inc.status ≠ IncidentStatus.awaiting_response →
      handle_thread_message ch ts s = (s, false)) ∧
    (get_incident_by_thread s.db ch ts = none →
      handle_thread_message ch ts s = (s, false)) ∧
    (∀ inc, get_incident s.db tk = some inc → (close_incident tk s).snd = true) ∧
    (∀ inc, get_incident s.db tk = some inc → (freeze_incident tk s).snd = true) := by
  refine ⟨?_, ?_, ?_, ?_, ?_, ?_, ?_, ?_⟩
  · intro inc hg hne
    simp only [take_incident_in_progress, hg]
    rw [if_neg (by simp [hne])]
  · intro hg
    simp only [take_incident_in_progress, hg]
  · intro inc hg hne1 hne2
    simp only [set_awaiting_response, hg]
    rw [if_neg (by simp [hne1, hne2])]
  · intro hg
    simp only [set_awaiting_response, hg]
  · intro inc hg hne
    simp only [handle_thread_message, hg]
    rw [if_neg (by simp [hne])]
  · intro hg
    simp only [handle_thread_message, hg]
  · intro inc hg
    simp only [close_incident, hg]
    rw [update_incident_found s.db ({ inc with status := IncidentStatus.closed }) inc
      (find?_ticket_of_get hg)]
    rfl
  · intro inc hg
    simp only [freeze_incident, hg]
    rw [update_incident_found s.db ({ inc with status := IncidentStatus.frozen }) inc
      (find?_ticket_of_get hg)]
    rfl

theorem c2_from_set_enforcement_witness :
    get_incident sysC.db "T-2" = some incCl ∧
    incCl.status ≠ IncidentStatus.created ∧
    take_incident_in_progress "T-2" "U9" sysC = (sysC, false) :=
  ⟨by decide, by decide,
    (c2_from_set_enforcement sysC "T-2" "U9" "C1" "11").1 incCl (by decide) (by decide)⟩

/-! ## Claim C4 -/

/-- C4 counterexample: CLOSED is not terminal — freezing a CLOSED
incident moves its stored status to FROZEN. -/
theorem c4_counterexample :
    (get_incident sysC.db "T-2").map Incident.status = some IncidentStatus.closed ∧
    (freeze_incident "T-2" sysC).snd = true ∧
    (get_incident (freeze_incident "T-2" sysC).fst.db "T-2").map Incident.status
      = some IncidentStatus.frozen := by decide

/-- C4 (amended): a CLOSED incident is left untouched (with a failure
outcome) by take-in-progress, await-response and reply-received, and
`close_incident` re-applies CLOSED; but `freeze_incident` succeeds on it
and rewrites the matching rows to FROZEN, so CLOSED is not terminal. -/
theorem c4_closed_not_terminal (s : SysState) (tk assignee ch ts : String)
    (inc : Incident) (hg : get_incident s.db tk = some inc)
    (hc : inc.status = IncidentStatus.closed) :
    take_incident_in_progress tk assignee s = (s, false) ∧
    set_awaiting_response tk s = (s, false) ∧
    (∀ inc2, get_incident_by_thread s.db ch ts = some inc2 →
      inc2.status = IncidentStatus.closed → handle_thread_message ch ts s = (s, false)) ∧
    (close_incident tk s).snd = true ∧
    (freeze_incident tk s).snd = true ∧
    (freeze_incident tk s).fst.db = s.db.map (fun r =>
      if r.ticket_key == inc.ticket_key && decide (r.status = inc.status) then
        { r with status := IncidentStatus.frozen, assigned_to := inc.assigned_to,
                 last_notification := inc.last_notification }
      else r) := by
  refine ⟨?_, ?_, ?_, ?_, ?_, ?_⟩
  · simp only [take_incident_in_progress, hg]
    rw [if_neg (by simp [hc])]
  · simp only [set_awaiting_response, hg]
    rw [if_neg (by simp [hc])]
  · intro inc2 hg2 hc2
    simp only [handle_thread_message, hg2]
    rw [if_neg (by simp [hc2])]
  · simp only [close_incident, hg]
    rw [update_incident_found s.db ({ inc with status := IncidentStatus.closed }) inc
      (find?_ticket_of_get hg)]
    rfl
  · simp only [freeze_incident, hg]
    rw [update_incident_found s.db ({ inc with status := IncidentStatus.frozen }) inc
      (find?_ticket_of_get hg)]
    rfl
  · simp only [freeze_incident, hg]
    rw [update_incident_found s.db ({ inc with status := IncidentStatus.frozen }) inc
      (find?_ticket_of_get hg)]
    rfl

theorem c4_closed_not_terminal_witness :
    get_incident sysC.db "T-2" = some incCl ∧
    incCl.status = IncidentStatus.closed ∧
    take_incident_in_progress "T-2" "U9" sysC = (sysC, false) ∧
    (freeze_incident "T-2" sysC).snd = true :=
  ⟨by decide, by decide,
    (c4_closed_not_terminal sysC "T-2" "U9" "C1" "11" incCl (by decide) (by decide)).1,
    (c4_closed_not_terminal sysC "T-2" "U9" "C1" "11" incCl (by decide) (by decide)).2.2.2.2.1⟩

theorem c7_worker_drops_terminal_witness :
    get_incident sysEx.db ndEx.ticket_key = some incCl ∧
    (incCl.status = IncidentStatus.closed ∨ incCl.status = IncidentStatus.frozen) ∧
    process_notification 9 ndEx sysEx
      = { sysEx with sched := cancel_notification ndEx.ticket_key ndEx.notification_type sysEx.sched } :=
  ⟨by decide, Or.inl rfl,
    (c7_worker_drops_terminal 9 ndEx sysEx).2.1 incCl (by decide) (Or.inl rfl)⟩

/-! ## Claim C3 -/

/-- Modelled from the spec: `compareAndUpdate(incident, expectedStatus)`
"writes the new record only if the currently stored status equals
`expectedStatus`; returns `Updated` or `Conflict` (no rows changed, stored
status differs)".  This definition follows the spec's words so that the
code's `update_incident` can be compared against it; it is not part of the
source. -/
def compareAndUpdateSpec (db : List Incident) (inc : Incident)
    (expected : IncidentStatus) : List Incident × Bool :=
  match db.find? (fun r => r.ticket_key == inc.ticket_key) with
  | none => (db, false)
  | some cur =>
    if decide (cur.status = expected) then
      (db.map (fun r =>
        if r.ticket_key == inc.ticket_key then
          { r with status := inc.status, assigned_to := inc.assigned_to,
                   last_notification := inc.last_notification }
        else r), true)
    else (db, false)

/-- A frozen incident used in concrete instances for C3. -/
def incF : Incident :=
  { ticket_key := "T-3", channel_id := "C2", thread_ts := "21",
    author_id := "U1", status := IncidentStatus.frozen }

/-- The record a caller who observed status ASSIGNED writes to close. -/
def incFC : Incident := { incF with status := IncidentStatus.closed }

/-- C3 counterexample: the stored status is FROZEN and the caller's
last-observed status is ASSIGNED — so against a caller-supplied expected
status the spec operation reports Conflict and changes no rows — yet the
code's `update_incident` (which re-reads the current status internally and
takes no expected-status argument) writes the new record and reports
success. -/
theorem c3_counterexample :
    (get_incident [incF] "T-3").map Incident.status = some IncidentStatus.frozen ∧
    IncidentStatus.frozen ≠ IncidentStatus.assigned ∧
    compareAndUpdateSpec [incF] incFC IncidentStatus.assigned = ([incF], false) ∧
    update_incident [incF] incFC = ([{ incF with status := IncidentStatus.closed }], true) := by
  decide

/-- C3 (amended): `update_incident` takes no expected-status argument and
compares only against the status it re-reads itself inside the operation;
in a sequential execution it therefore writes (and reports success)
exactly when the incident exists — regardless of what status the caller
last observed — and reports failure only when the incident is absent. -/
theorem c3_update_ignores_caller_observation (db : List Incident) (inc : Incident) :
    (db.find? (fun r => r.ticket_key == inc.ticket_key) = none →
      update_incident db inc = (db, false)) ∧
    (∀ cur, db.find? (fun r => r.ticket_key == inc.ticket_key) = some cur →
      update_incident db inc = (db.map (fun r =>
        if r.ticket_key == inc.ticket_key && decide (r.status = cur.status) then
          { r with status := inc.status, assigned_to := inc.assigned_to,
                   last_notification := inc.last_notification }
        else r), true)) ∧
    ((update_incident db inc).snd = true ↔
      ∃ cur, db.find? (fun r => r.ticket_key == inc.ticket_key) = some cur) := by
  refine ⟨?_, ?_, ?_⟩
  · intro h
    exact update_incident_none h
  · intro cur h
    exact update_incident_found db inc cur h
  · constructor
    · intro hs
      cases hf : db.find? (fun r => r.ticket_key == inc.ticket_key) with
      | none =>
        rw [update_incident_none hf] at hs
        cases hs
      | some cur => exact ⟨cur, rfl⟩
    · intro ⟨cur, hf⟩
      rw [update_incident_found db inc cur hf]

theorem c3_update_ignores_caller_observation_witness :
    ([incF].find? (fun r => r.ticket_key == incFC.ticket_key) = some incF) ∧
    update_incident [incF] incFC = ([incF].map (fun r =>
      if r.ticket_key == incFC.ticket_key && decide (r.status = incF.status) then
        { r with status := incFC.status, assigned_to := incFC.assigned_to,
                 last_notification := incFC.last_notification }
      else r), true) :=
  ⟨by decide,
    (c3_update_ignores_caller_observation [incF] incFC).2.1 incF (by decide)⟩

/-! ## Claim C6 -/

/-- An AWAITING_RESPONSE incident paired with a `default`-kind reminder,
used in concrete instances for C5/C6. -/
def incAw : Incident :=
  { ticket_key := "T-4", channel_id := "C1", thread_ts := "12",
    author_id := "U1", status := IncidentStatus.awaiting_response }

def ndAw : NotificationData := mkNotificationData 0 "T-4" (incidentToData 0 incAw) 7 "default"

def sysAw : SysState :=
  { db := [incAw],
    sched := { queue := [ndAw], keys := [(("T-4", "default"), ndAw)] },
    sent := [] }

/-- C6 counterexample: the worker delivers a `default`-kind reminder whose
incident is AWAITING_RESPONSE and then *reinstalls* it for
`now + interval` — although the claim says a `default` reminder is only
rescheduled when the status is CREATED and must be retired otherwise. -/
theorem c6_counterexample :
    incAw.status = IncidentStatus.awaiting_response ∧
    ndAw.notification_type = "default" ∧
    (worker_step 9 sysAw).sent ≠ [] ∧
    liveFor (worker_step 9 sysAw).sched "T-4" "default"
      = [{ ndAw with scheduled_time := 9 + 7, created_at := 9 }] := by
  decide

/-- C6 (amended): after the worker delivers a reminder, the next
occurrence (due at `now + interval_minutes`) is installed precisely when
the re-read status is CREATED or AWAITING_RESPONSE — *irrespective of the
reminder's kind* — and the reminder is retired instead only when the
status is ASSIGNED (CLOSED/FROZEN/absent never reach the delivery path). -/
theorem c6_reschedule_ignores_kind (now : Nat) (nd : NotificationData)
    (s : SysState) (inc : Incident)
    (hg : get_incident s.db nd.ticket_key = some inc) :
    (inc.status = IncidentStatus.created ∨ inc.status = IncidentStatus.awaiting_response →
      process_notification now nd s = { s with
        sent := ({ nd.incident_data with status := inc.status.value },
          nd.notification_type) :: s.sent,
        sched := scheduleNext now nd s.sched }) ∧
    (inc.status = IncidentStatus.assigned →
      process_notification now nd s = { s with
        sent := ({ nd.incident_data with status := inc.status.value },
          nd.notification_type) :: s.sent,
        sched := cancel_notification nd.ticket_key nd.notification_type s.sched }) ∧
    (scheduleNext now nd s.sched).queue
      = { nd with scheduled_time := now + nd.interval_minutes, created_at := now }
          :: s.sched.queue := by
  refine ⟨?_, ?_, rfl⟩
  · intro hst
    simp only [process_notification, hg]
    rcases hst with hv | hv
    · rw [if_neg (by simp [hv]), if_neg (by simp [hv]), if_pos (by simp [hv])]
    · rw [if_neg (by simp [hv]), if_neg (by simp [hv]), if_pos (by simp [hv])]
  · intro hv
    simp only [process_notification, hg]
    rw [if_neg (by simp [hv]), if_neg (by simp [hv]), if_neg (by simp [hv])]

theorem c6_reschedule_ignores_kind_witness :
    get_incident sysAw.db ndAw.ticket_key = some incAw ∧
    incAw.status = IncidentStatus.awaiting_response ∧
    process_notification 9 ndAw sysAw = { sysAw with
      sent := ({ ndAw.incident_data with status := incAw.status.value },
        ndAw.notification_type) :: sysAw.sent,
      sched := scheduleNext 9 ndAw sysAw.sched } :=
  ⟨by decide, rfl,
    (c6_reschedule_ignores_kind 9 ndAw sysAw incAw (by decide)).1 (Or.inr rfl)⟩

/-! ## Claim C5 -/

theorem liveCount_eq_length_liveFor (st : SchedState) (tk ty : String) :
    liveCount st tk ty = (liveFor st tk ty).length := by
  rw [liveCount, liveFor, List.countP_eq_length_filter]

theorem liveFor_schedule_fresh {st : SchedState} {tk ty : String}
    (hk : keyLive st tk ty = false) (hz : liveCount st tk ty = 0)
    (now : Nat) (data : IncidentData) (iv : Nat) :
    liveFor (schedule_notification now tk data iv ty st) tk ty
      = [mkNotificationData now tk data iv ty] := by
  simp only [schedule_notification]
  rw [if_neg (by rw [hk]; simp)]
  show List.filter _ (_ :: st.queue) = _
  rw [List.filter_cons_of_pos (by rw [matchesKey_iff]; exact ⟨rfl, rfl⟩)]
  have hnil := liveFor_nil_of_liveCount_zero hz
  rw [liveFor] at hnil
  rw [hnil]

theorem keyLive_cancel_other {tk' ty' tk ty : String}
    (h : ¬(tk' = tk ∧ ty' = ty)) (st : SchedState) :
    keyLive (cancel_notification tk ty st) tk' ty' = keyLive st tk' ty' := by
  rw [cancel_notification, keyLive_removeFromQueue]
  exact keyLive_keyDelete_other h st

theorem keyLive_schedule_other {tk' ty' tk ty : String}
    (h : ¬(tk' = tk ∧ ty' = ty)) (now : Nat) (data : IncidentData) (iv : Nat)
    (st : SchedState) :
    keyLive (schedule_notification now tk data iv ty st) tk' ty'
      = keyLive st tk' ty' := by
  simp only [schedule_notification]
  by_cases hkl : keyLive st tk ty = true
  · rw [if_pos hkl]
    rw [keyLive_keySet_other h]
    show keyLive (cancel_notification tk ty st) tk' ty' = _
    exact keyLive_cancel_other h st
  · rw [if_neg hkl]
    rw [keyLive_keySet_other h]
    rfl

theorem mem_schedule {now : Nat} {tk : String} {data : IncidentData} {iv : Nat}
    {ty : String} {st : SchedState} {n : NotificationData}
    (hn : n ∈ (schedule_notification now tk data iv ty st).queue) :
    n = mkNotificationData now tk data iv ty ∨ n ∈ st.queue := by
  simp only [schedule_notification] at hn
  by_cases hkl : keyLive st tk ty = true
  · rw [if_pos hkl] at hn
    have hn' : n ∈ mkNotificationData now tk data iv ty
        :: (cancel_notification tk ty st).queue := hn
    rcases List.mem_cons.mp hn' with hEq | hmem
    · exact Or.inl hEq
    · exact Or.inr (mem_cancel hmem)
  · rw [if_neg hkl] at hn
    have hn' : n ∈ mkNotificationData now tk data iv ty :: st.queue := hn
    rcases List.mem_cons.mp hn' with hEq | hmem
    · exact Or.inl hEq
    · exact Or.inr hmem

theorem liveCount_restore_untouched (now : Nat) :
    ∀ (l : List Incident) (st : SchedState) (tk ty : String),
      (∀ i ∈ l, i.ticket_key ≠ tk) →
      liveCount (restore_notifications now l st) tk ty = liveCount st tk ty := by
  intro l
  induction l with
  | nil =>
    intro st tk ty _
    rfl
  | cons a l ih =>
    intro st tk ty hne
    simp only [restore_notifications]
    by_cases hca : a.status = IncidentStatus.created
    · rw [if_pos (by simp [hca])]
      rw [ih _ tk ty (fun i hi => hne i (List.mem_cons_of_mem a hi))]
      exact liveCount_schedule_other
        (by
          intro hc
          exact (hne a (List.mem_cons_self a l)) hc.1.symm)
        now (incidentToData now a) 5 st
    · rw [if_neg (by simp [hca])]
      exact ih _ tk ty (fun i hi => hne i (List.mem_cons_of_mem a hi))

theorem mem_restore (now : Nat) :
    ∀ {l : List Incident} {st : SchedState} {n : NotificationData},
      n ∈ (restore_notifications now l st).queue →
      n ∈ st.queue ∨ ∃ i ∈ l, i.status = IncidentStatus.created ∧
        n = mkNotificationData now i.ticket_key (incidentToData now i) 5 "default" := by
  intro l
  induction l with
  | nil =>
    intro st n hn
    exact Or.inl hn
  | cons a l ih =>
    intro st n hn
    simp only [restore_notifications] at hn
    by_cases hca : a.status = IncidentStatus.created
    · rw [if_pos (by simp [hca])] at hn
      rcases ih hn with hmem | ⟨i, hi, hic, hmk⟩
      · rcases mem_schedule hmem with hEq | hmem'
        · exact Or.inr ⟨a, List.mem_cons_self a l, hca, hEq⟩
        · exact Or.inl hmem'
      · exact Or.inr ⟨i, List.mem_cons_of_mem a hi, hic, hmk⟩
    · rw [if_neg (by simp [hca])] at hn
      rcases ih hn with hmem | ⟨i, hi, hic, hmk⟩
      · exact Or.inl hmem
      · exact Or.inr ⟨i, List.mem_cons_of_mem a hi, hic, hmk⟩

theorem restore_go (now : Nat) :
    ∀ (l : List Incident) (st : SchedState),
      l.Pairwise (fun a b => a.ticket_key ≠ b.ticket_key) →
      (∀ i ∈ l, ∀ ty, liveCount st i.ticket_key ty = 0 ∧
        keyLive st i.ticket_key ty = false) →
      ∀ inc ∈ l,
        (inc.status = IncidentStatus.created →
          liveCount (restore_notifications now l st) inc.ticket_key "default" = 1 ∧
          ∀ n ∈ (restore_notifications now l st).queue,
            matchesKey inc.ticket_key "default" n = true →
            n = mkNotificationData now inc.ticket_key (incidentToData now inc) 5 "default") ∧
        (inc.status ≠ IncidentStatus.created →
          ∀ ty, liveCount (restore_notifications now l st) inc.ticket_key ty = 0) := by
  intro l
  induction l with
  | nil =>
    intro st _ _ inc hmem
    cases hmem
  | cons a l ih =>
    intro st hp hfresh inc hmem
    rcases List.pairwise_cons.mp hp with ⟨ha, hp'⟩
    have hfreshA := hfresh a (List.mem_cons_self a l)
    have huntouched : ∀ i ∈ l, i.ticket_key ≠ a.ticket_key :=
      fun i hi => (ha i hi).symm
    simp only [restore_notifications]
    by_cases hca : a.status = IncidentStatus.created
    · rw [if_pos (by simp [hca])]
      have hfresh' : ∀ i ∈ l, ∀ ty,
          liveCount (schedule_notification now a.ticket_key (incidentToData now a)
            5 "default" st) i.ticket_key ty = 0 ∧
          keyLive (schedule_notification now a.ticket_key (incidentToData now a)
            5 "default" st) i.ticket_key ty = false := by
        intro i hi ty
        have hne : ¬(i.ticket_key = a.ticket_key ∧ ty = "default") :=
          fun hc => (huntouched i hi) hc.1
        constructor
        · rw [liveCount_schedule_other hne now (incidentToData now a) 5 st]
          exact (hfresh i (List.mem_cons_of_mem a hi) ty).1
        · rw [keyLive_schedule_other hne now (incidentToData now a) 5 st]
          exact (hfresh i (List.mem_cons_of_mem a hi) ty).2
      rcases List.mem_cons.mp hmem with hEq | hmem'
      · subst hEq
        refine ⟨fun _ => ?_, fun hnc => absurd hca hnc⟩
        have hk := (hfreshA "default").2
        have hz := (hfreshA "default").1
        have hlf := liveFor_schedule_fresh hk hz now (incidentToData now inc) 5
        constructor
        · rw [liveCount_restore_untouched now l _ inc.ticket_key "default" huntouched]
          rw [liveCount_eq_length_liveFor, hlf]
          rfl
        · intro n hn hmatch
          rcases mem_restore now hn with hmemq | ⟨i, hi, _, hnmk⟩
          · have hnm : n ∈ liveFor (schedule_notification now inc.ticket_key
                (incidentToData now inc) 5 "default" st) inc.ticket_key "default" :=
              List.mem_filter.mpr ⟨hmemq, hmatch⟩
            rw [hlf] at hnm
            exact List.mem_singleton.mp hnm
          · exfalso
            have hti : n.ticket_key = i.ticket_key := by rw [hnmk]; rfl
            rcases matchesKey_iff.mp hmatch with ⟨h1, _⟩
            exact (huntouched i hi) (hti ▸ h1)
      · exact ih _ hp' hfresh' inc hmem'
    · rw [if_neg (by simp [hca])]
      have hfresh' : ∀ i ∈ l, ∀ ty, liveCount st i.ticket_key ty = 0 ∧
          keyLive st i.ticket_key ty = false :=
        fun i hi => hfresh i (List.mem_cons_of_mem a hi)
      rcases List.mem_cons.mp hmem with hEq | hmem'
      · subst hEq
        refine ⟨fun hc => absurd hc hca, fun _ ty => ?_⟩
        rw [liveCount_restore_untouched now l st inc.ticket_key ty huntouched]
        exact (hfreshA ty).1
      · exact ih _ hp' hfresh' inc hmem'

/-- An incident still in CREATED, used in concrete instances for C5. -/
def incCr : Incident :=
  { ticket_key := "T-5", channel_id := "C3", thread_ts := "31",
    author_id := "U1", status := IncidentStatus.created }

/-- C5 counterexample: an active (non-CLOSED) incident in
AWAITING_RESPONSE with no reminder record gets *nothing* from startup
reconciliation — `restore_notifications` only handles CREATED incidents —
although the claim requires exactly one `awaiting_response` reminder. -/
theorem c5_counterexample :
    incAw.status ≠ IncidentStatus.closed ∧
    incAw.status = IncidentStatus.awaiting_response ∧
    restore_notifications 0 [incAw] emptySched = emptySched ∧
    liveCount (restore_notifications 0 [incAw] emptySched) "T-4" "awaiting_response" = 0 := by
  decide

/-- C5 (amended): startup reconciliation re-creates reminders only for
CREATED incidents: starting from an empty scheduler state, every CREATED
incident in the (distinct-keyed) active list ends with exactly one
`default` reminder due in 5 minutes, and every incident in any other
status (ASSIGNED, AWAITING_RESPONSE, FROZEN) ends with no reminder of any
kind. -/
theorem c5_restore_only_created (now : Nat) (incidents : List Incident)
    (hdist : incidents.Pairwise (fun a b => a.ticket_key ≠ b.ticket_key)) :
    ∀ inc ∈ incidents,
      (inc.status = IncidentStatus.created →
        liveCount (restore_notifications now incidents emptySched) inc.ticket_key "default" = 1 ∧
        ∀ n ∈ (restore_notifications now incidents emptySched).queue,
          matchesKey inc.ticket_key "default" n = true →
          n = mkNotificationData now inc.ticket_key (incidentToData now inc) 5 "default") ∧
      (inc.status ≠ IncidentStatus.created →
        ∀ ty, liveCount (restore_notifications now incidents emptySched) inc.ticket_key ty = 0) :=
  restore_go now incidents emptySched hdist (fun _ _ _ => ⟨rfl, rfl⟩)

theorem c5_restore_only_created_witness :
    ([incCr].Pairwise (fun a b => a.ticket_key ≠ b.ticket_key)) ∧
    incCr.status = IncidentStatus.created ∧
    liveCount (restore_notifications 2 [incCr] emptySched) incCr.ticket_key "default" = 1 :=
  ⟨List.pairwise_singleton _ _, rfl,
    ((c5_restore_only_created 2 [incCr] (List.pairwise_singleton _ _)
      incCr (List.mem_singleton_self _)).1 rfl).1⟩

/-! ## Claim C10: the `try/except` structure of the scheduler

A second, failure-aware layer: every Redis client call is a `prim` step
that consults a failure script (`fails : Nat → Bool`, indexed by how many
Redis calls have run so far) and either raises — leaving the state as it
was, like a client error — or performs its effect.  Each public scheduler
method wraps its whole body in `try/except` (`runCatch`), exactly as in
`redis_scheduler.py`; the nested helpers `_remove_from_queue` and
`cancel_notification` carry their own inner `try/except`
(`...Caught` wrappers), as in the source. -/

def RedisM (α : Type) : Type :=
  (Nat → Bool) → Nat → SchedState → Nat × SchedState × Except Unit α

def RedisM.pureR {α : Type} (a : α) : RedisM α :=
  fun _ ctr st => (ctr, st, Except.ok a)

def RedisM.bindR {α β : Type} (x : RedisM α) (f : α → RedisM β) : RedisM β :=
  fun fails ctr st =>
    match x fails ctr st with
    | (ctr', st', Except.ok a) => f a fails ctr' st'
    | (ctr', st', Except.error e) => (ctr', st', Except.error e)

instance : Monad RedisM where
  pure := RedisM.pureR
  bind := RedisM.bindR

/-- One Redis client call: fails (raising, no state change) or performs
its effect, advancing the call counter either way. -/
def prim {α : Type} (f : SchedState → SchedState × α) : RedisM α :=
  fun fails ctr st =>
    if fails ctr then (ctr + 1, st, Except.error ())
    else ((ctr + 1, (f st).fst, Except.ok (f st).snd))

def rExists (tk ty : String) : RedisM Bool :=
  prim (fun st => (st, keyLive st tk ty))

def rSet (tk ty : String) (nd : NotificationData) : RedisM Unit :=
  prim (fun st => (keySet tk ty nd st, ()))

def rDeleteKey (tk ty : String) : RedisM Nat :=
  prim (fun st => (keyDelete tk ty st, if keyLive st tk ty then 1 else 0))

def rLpush (nd : NotificationData) : RedisM Unit :=
  prim (fun st => ({ st with queue := nd :: st.queue }, ()))

def rLrange : RedisM (List NotificationData) :=
  prim (fun st => (st, st.queue))

def rDeleteQueue : RedisM Unit :=
  prim (fun st => ({ st with queue := [] }, ()))

def rLpushAll (items : List NotificationData) : RedisM Unit :=
  prim (fun st => ({ st with queue := items.reverse ++ st.queue }, ()))

def rKeys (tk : String) : RedisM (List ((String × String) × NotificationData)) :=
  prim (fun st => (st, st.keys.filter (fun kv => kv.fst.fst == tk)))

def rDeleteKeys (tk : String) : RedisM Nat :=
  prim (fun st =>
    ({ st with keys := st.keys.filter (fun kv => !(kv.fst.fst == tk)) },
      (st.keys.filter (fun kv => kv.fst.fst == tk)).length))

/-- Swallow any error of an inner body, keeping its partial effects: the
inner `try/except`-and-log pattern of the source. -/
def caught (body : RedisM Unit) : RedisM Unit :=
  fun fails ctr st =>
    match body fails ctr st with
    | (ctr', st', _) => (ctr', st', Except.ok ())

def removeFromQueueBody (tk ty : String) : RedisM Unit := do
  let items ← rLrange
  let keep := items.filter (fun n => !(matchesKey tk ty n))
  if keep.length == items.length then pure ()
  else do
    rDeleteQueue
    if keep.isEmpty then pure () else rLpushAll keep

def cancelBody (tk ty : String) : RedisM Unit := do
  let _ ← rDeleteKey tk ty
  caught (removeFromQueueBody tk ty)

def scheduleBody (now : Nat) (tk : String) (data : IncidentData) (iv : Nat)
    (ty : String) : RedisM Unit := do
  let ex ← rExists tk ty
  if ex then caught (cancelBody tk ty) else pure ()
  rLpush (mkNotificationData now tk data iv ty)
  rSet tk ty (mkNotificationData now tk data iv ty)

def removeAllFromQueueBody (tk : String) : RedisM Unit := do
  let items ← rLrange
  let keep := items.filter (fun n => !(n.ticket_key == tk))
  if keep.length == items.length then pure ()
  else do
    rDeleteQueue
    if keep.isEmpty then pure () else rLpushAll keep

def cancelAllBody (tk : String) : RedisM Unit := do
  let ks ← rKeys tk
  if ks.isEmpty then pure () else do
    let _ ← rDeleteKeys tk
    pure ()
  caught (removeAllFromQueueBody tk)

def restoreLoop (now : Nat) : List Incident → RedisM Unit
  | [] => pure ()
  | inc :: rest => do
    if decide (inc.status = IncidentStatus.created) then
      caught (scheduleBody now inc.ticket_key (incidentToData now inc) 5 "default")
    else pure ()
    restoreLoop now rest

/-- The `try/except` of a public scheduler method: the body's error is
logged and swallowed; the method returns normally (Python `None`, here
`Except.ok ()`) with whatever partial effects the body made. An
`Except.error` in the result would model an exception escaping to the
caller. -/
def runCatch (body : RedisM Unit) (fails : Nat → Bool) (st : SchedState) :
    SchedState × Except Unit Unit :=
  match body fails 0 st with
  | (_, st', Except.ok _) => (st', Except.ok ())
  | (_, st', Except.error _) => (st', Except.ok ())

def schedule_notification_run (fails : Nat → Bool) (now : Nat) (tk : String)
    (data : IncidentData) (iv : Nat) (ty : String) (st : SchedState) :
    SchedState × Except Unit Unit :=
  runCatch (scheduleBody now tk data iv ty) fails st

def cancel_notification_run (fails : Nat → Bool) (tk ty : String) (st : SchedState) :
    SchedState × Except Unit Unit :=
  runCatch (cancelBody tk ty) fails st

def cancel_all_notifications_run (fails : Nat → Bool) (tk : String) (st : SchedState) :
    SchedState × Except Unit Unit :=
  runCatch (cancelAllBody tk) fails st

def restore_notifications_run (fails : Nat → Bool) (now : Nat)
    (incidents : List Incident) (st : SchedState) :
    SchedState × Except Unit Unit :=
  runCatch (restoreLoop now incidents) fails st

theorem runCatch_snd_ok (body : RedisM Unit) (fails : Nat → Bool) (st : SchedState) :
    (runCatch body fails st).snd = Except.ok () := by
  simp only [runCatch]
  rcases hx : body fails 0 st with ⟨c, st', r⟩
  cases r <;> rfl

/-- C10: every public scheduler operation returns normally for every
failure script and state — the returned value is always the normal
`Except.ok ()` (Python `None`), never a propagated error — even though the
underlying bodies genuinely raise under a failing script, as the last
three conjuncts exhibit at a concrete input. -/
theorem c10_scheduler_never_raises :
    (∀ fails now tk data iv ty st,
      (schedule_notification_run fails now tk data iv ty st).snd = Except.ok ()) ∧
    (∀ fails tk ty st, (cancel_notification_run fails tk ty st).snd = Except.ok ()) ∧
    (∀ fails tk st, (cancel_all_notifications_run fails tk st).snd = Except.ok ()) ∧
    (∀ fails now incidents st,
      (restore_notifications_run fails now incidents st).snd = Except.ok ()) ∧
    ((scheduleBody 0 "T-1" exData 5 "default") (fun _ => true) 0 emptySched
      = (1, emptySched, Except.error ())) ∧
    ((cancelBody "T-1" "default") (fun _ => true) 0 emptySched
      = (1, emptySched, Except.error ())) ∧
    ((cancelAllBody "T-1") (fun _ => true) 0 emptySched
      = (1, emptySched, Except.error ())) := by
  refine ⟨?_, ?_, ?_, ?_, rfl, rfl, rfl⟩
  · intro fails now tk data iv ty st
    exact runCatch_snd_ok _ fails st
  · intro fails tk ty st
    exact runCatch_snd_ok _ fails st
  · intro fails tk st
    exact runCatch_snd_ok _ fails st
  · intro fails now incidents st
    exact runCatch_snd_ok _ fails st

/-- The failure script under which every Redis call succeeds. -/
def noFail : Nat → Bool := fun _ => false

/-- Corroboration that the failure-aware bodies and the pure layer agree
when no Redis call fails: the key-already-present path of
`schedule_notification`. -/
theorem scheduleBody_agrees_existing :
    ((scheduleBody 3 "T-2" exData 5 "default") noFail 0 sysEx.sched).snd
      = (schedule_notification 3 "T-2" exData 5 "default" sysEx.sched, Except.ok ()) := by
  rfl

/-- Corroboration on the fresh-key path of `schedule_notification`. -/
theorem scheduleBody_agrees_fresh :
    ((scheduleBody 3 "T-1" exData 5 "default") noFail 0 emptySched).snd
      = (schedule_notification 3 "T-1" exData 5 "default" emptySched, Except.ok ()) := by
  rfl

/-- Corroboration for `cancel_notification` on a populated state. -/
theorem cancelBody_agrees :
    ((cancelBody "T-2" "default") noFail 0 sysEx.sched).snd
      = (cancel_notification "T-2" "default" sysEx.sched, Except.ok ()) := by
  rfl

/-- Corroboration for `cancel_all_notifications` on a populated state. -/
theorem cancelAllBody_agrees :
    ((cancelAllBody "T-2") noFail 0 sysEx.sched).snd
      = (cancel_all_notifications "T-2" sysEx.sched, Except.ok ()) := by
  rfl

/-- Corroboration for `restore_notifications` over a mixed incident list. -/
theorem restoreLoop_agrees :
    ((restoreLoop 2 [incCr, incAw]) noFail 0 emptySched).snd
      = (restore_notifications 2 [incCr, incAw] emptySched, Except.ok ()) := by
  rfl
